import Mathlib

/-!
Verification of the adaptive web-scraper core (`gui_scraper.py`).

The development below is a shallow embedding of the program's data model and
algorithms.  DOM reads, network calls and the Playwright facade are modelled
as explicit inputs (the sequence of extraction results per cycle, probe
outcomes per CSS candidate, HTTP attempt outcomes per request), and the
Python/JS code operating on them is translated function by function.
-/

set_option autoImplicit false

namespace Scraper

/-! ### String primitives

JS `.trim()` / Python `.strip()`, `.lower()`, `.startswith()` and
whitespace-run splitting, implemented on the character list so that they
evaluate by kernel reduction. -/

def pyTrim (s : String) : String :=
  String.mk (((s.toList.dropWhile Char.isWhitespace).reverse.dropWhile
    Char.isWhitespace).reverse)

def pyLower (s : String) : String :=
  String.mk (s.toList.map Char.toLower)

def startsWithChars : List Char → List Char → Bool
  | [], _ => true
  | _ :: _, [] => false
  | p :: ps, c :: cs => p == c && startsWithChars ps cs

/-- `s.startswith(pat)` / JS `s.startsWith(pat)`. -/
def pyStartsWith (s pat : String) : Bool :=
  startsWithChars pat.toList s.toList

/-- Splitting on runs of whitespace, JS `str.split(/\s+/)` after a trim:
the whitespace-separated words. -/
def wsWordsAux : List Char → List Char → List (List Char)
  | [], acc => if acc.isEmpty then [] else [acc.reverse]
  | c :: cs, acc =>
    if c.isWhitespace then
      if acc.isEmpty then wsWordsAux cs [] else acc.reverse :: wsWordsAux cs []
    else wsWordsAux cs (c :: acc)

def wsWords (s : String) : List String :=
  (wsWordsAux s.toList []).map String.mk

/-! ### Data model

`TableRow` is one entry of the `rows` array produced by `extract_table_js`
(a dict with keys `cells`, `links`, `imgs`); `ListItem` is one entry produced
by `extract_list_items_js` (keys `title`, `text`, `links`, `imgs`). -/

structure TableRow where
  cells : List String
  links : List String
  imgs : List String
deriving DecidableEq, Repr

structure ListItem where
  title : String
  text : String
  links : List String
  imgs : List String
deriving DecidableEq, Repr

/-- A record held in the cumulative `combined` list of `scroll_until_stable`:
either a table row or a list item. -/
abbrev Record := TableRow ⊕ ListItem

/-! ### Python `repr` of a row dict

`scroll_until_stable` falls back to `repr(r)[:200]` as a dedup key when a row
has neither cells nor links.  We reproduce Python's `repr` for the dict shape
`\x7b'cells': [...], 'links': [...], 'imgs': [...]\x7d` (strings of printable
ASCII; the quote-selection and escaping rules of `repr(str)`). -/

def pyReprQuote (s : String) : Char :=
  if s.contains '\'' && !(s.contains '"') then '"' else '\''

def pyReprEscChar (q : Char) (c : Char) : String :=
  if c = '\\' then "\\\\"
  else if c = q then "\\" ++ String.singleton q
  else if c = '\n' then "\\n"
  else if c = '\r' then "\\r"
  else if c = '\t' then "\\t"
  else String.singleton c

def pyReprStr (s : String) : String :=
  let q := pyReprQuote s
  String.singleton q ++ String.join (s.toList.map (pyReprEscChar q)) ++ String.singleton q

def pyReprList (l : List String) : String :=
  "[" ++ String.intercalate ", " (l.map pyReprStr) ++ "]"

def pyReprRow (r : TableRow) : String :=
  "\x7b'cells': " ++ pyReprList r.cells ++ ", 'links': " ++ pyReprList r.links ++
    ", 'imgs': " ++ pyReprList r.imgs ++ "\x7d"

/-! ### Dedup keys (gui_scraper.py lines 284–292) -/

/-- Key for a table row: `"|".join(cells) if cells else "|".join(links)`, and
if that is empty, `repr(r)[:200]`. -/
def rowKey (r : TableRow) : String :=
  let key := if r.cells ≠ [] then String.intercalate "|" r.cells
             else String.intercalate "|" r.links
  if key = "" then (pyReprRow r).take 200 else key

/-- Key for a list item: `(title or '') + '|' + (text or '')`. -/
def itemKey (it : ListItem) : String :=
  it.title ++ "|" ++ it.text

/-- Dedup key of a `Record`. -/
def recKey : Record → String
  | Sum.inl r => rowKey r
  | Sum.inr it => itemKey it

/-! ### The merge step of `scroll_until_stable` (lines 281–295)

For each freshly extracted record, if its key is not in `self.seen_keys` the
key is added and the record appended to `combined`; otherwise it is dropped.
The Python `set` is modelled as a list used only through membership. -/

def mergeLoop {α : Type} (key : α → String) (inj : α → Record) :
    List String → List Record → List α → List String × List Record
  | seen, combined, [] => (seen, combined)
  | seen, combined, r :: rs =>
    if key r ∈ seen then mergeLoop key inj seen combined rs
    else mergeLoop key inj (key r :: seen) (combined ++ [inj r]) rs

/-- What one cycle's extraction produced: `None` (selector missing, JS
returned null, or the read raised), a table dict `\x7bheaders, rows\x7d`, or a
list of items. -/
inductive ExtractResult : Type
  | noData : ExtractResult
  | table (headers : List String) (rows : List TableRow) : ExtractResult
  | items (its : List ListItem) : ExtractResult

/-- The `if data:` merge block.  A table dict is always truthy (it has two
keys) and its `rows` are merged with `rowKey`; a list is merged item-wise with
`itemKey` (an empty list is falsy in Python, but merging an empty list is a
no-op anyway); `None` is falsy and skipped. -/
def mergeData (seen : List String) (combined : List Record) :
    ExtractResult → List String × List Record
  | ExtractResult.noData => (seen, combined)
  | ExtractResult.table _hs rows => mergeLoop rowKey Sum.inl seen combined rows
  | ExtractResult.items its => mergeLoop itemKey Sum.inr seen combined its

/-! ### The convergence loop `scroll_until_stable` (lines 254–310)

State carried across cycles.  `seen` is the engine's `self.seen_keys`;
`combined`, `last_count`, `stagnant`, `cycles` are the loop locals.  At the
top of each cycle `cycles` equals the number of completed cycles, so the
environment is modelled as two streams indexed by the cycle counter:
`extract i` is what `extract_func(selector_getter())` yields on cycle `i`
(`noData` when the selector is absent, the JS returned null, or the read
raised) and `stop i` is the value of `self.stop_event.is_set()` there. -/

structure LoopState where
  seen : List String
  combined : List Record
  last_count : Nat
  stagnant : Nat
  cycles : Nat
deriving Repr

def initLoopState : LoopState := ⟨[], [], 0, 0, 0⟩

/-- One iteration of the `while True:` body.  `Sum.inr res` means the loop
breaks and `scroll_until_stable` returns `res`; `Sum.inl s'` means the loop
continues with state `s'`.  The drive step (`perform_advanced_scroll_step`)
happens between the stop check and the extraction and does not touch the
loop state. -/
def scrollIter (extract : Nat → ExtractResult) (stop : Nat → Bool)
    (max_cycles : Nat) (s : LoopState) : LoopState ⊕ List Record :=
  if stop s.cycles then Sum.inr s.combined
  else
    if (mergeData s.seen s.combined (extract s.cycles)).2.length = s.last_count ∧
        s.stagnant + 1 ≥ max_cycles then
      Sum.inr (mergeData s.seen s.combined (extract s.cycles)).2
    else if s.cycles + 1 > 500 ∨
        (mergeData s.seen s.combined (extract s.cycles)).2.length > 60000 then
      Sum.inr (mergeData s.seen s.combined (extract s.cycles)).2
    else
      Sum.inl ⟨(mergeData s.seen s.combined (extract s.cycles)).1,
               (mergeData s.seen s.combined (extract s.cycles)).2,
               (mergeData s.seen s.combined (extract s.cycles)).2.length,
               (if (mergeData s.seen s.combined (extract s.cycles)).2.length = s.last_count
                then s.stagnant + 1 else 0),
               s.cycles + 1⟩

/-- Run the loop with the given fuel.  Returns the records handed back on a
break (`Option.none` if the fuel ran out first) paired with the number of
drive steps performed (one per iteration that passes the stop check). -/
def scrollRun (extract : Nat → ExtractResult) (stop : Nat → Bool)
    (max_cycles : Nat) : Nat → LoopState → Option (List Record) × Nat
  | 0, _ => (Option.none, 0)
  | Nat.succ n, s =>
    match scrollIter extract stop max_cycles s with
    | Sum.inr res => (some res, if stop s.cycles then 0 else 1)
    | Sum.inl s' =>
      ((scrollRun extract stop max_cycles n s').1,
       (scrollRun extract stop max_cycles n s').2 + 1)

/-- `scroll_until_stable`, from the initial locals.  Fuel 502 is enough for
any input (proved below), so the fuelled runner is faithful to the unbounded
`while True:`. -/
def scroll_until_stable (extract : Nat → ExtractResult) (stop : Nat → Bool)
    (max_cycles : Nat) : Option (List Record) × Nat :=
  scrollRun extract stop max_cycles 502 initLoopState

/-- The dedup keys of the records one extraction result would merge. -/
def dataKeys : ExtractResult → List String
  | ExtractResult.noData => []
  | ExtractResult.table _ rows => rows.map rowKey
  | ExtractResult.items its => its.map itemKey

/-- The combined list an iteration outcome carries. -/
def iterCombined : LoopState ⊕ List Record → List Record
  | Sum.inl s' => s'.combined
  | Sum.inr res => res

/-- The invariant tying `seen_keys` to `combined`: records have pairwise
distinct dedup keys, each of which has been recorded in the seen set. -/
def MInv (seen : List String) (combined : List Record) : Prop :=
  combined.Pairwise (fun a b => recKey a ≠ recKey b) ∧
  ∀ r ∈ combined, recKey r ∈ seen

/-! ### `extract_table_js` (lines 146–170)

The DOM inputs of the evaluated script: the `thead th` texts and the
`tbody tr` elements of the queried table (`Option.none` models
`document.querySelector` finding no table, in which case the script returns
null). -/

structure DomRow where
  tds : List String
  hrefs : List String
  srcs : List String
deriving DecidableEq, Repr

structure DomTable where
  theadThs : List String
  bodyRows : List DomRow
deriving DecidableEq, Repr

def extract_table_js (t : Option DomTable) : Option (List String × List TableRow) :=
  match t with
  | Option.none => Option.none
  | some tbl =>
    let heads := tbl.theadThs.map pyTrim
    let headers :=
      if heads.length = 0 then
        match tbl.bodyRows.head? with
        | some first => (List.range first.tds.length).map (fun i => "Column_" ++ toString (i + 1))
        | Option.none => heads
      else heads
    some (headers,
      tbl.bodyRows.map (fun tr => ⟨tr.tds.map pyTrim, tr.hrefs, tr.srcs⟩))

/-! ### `detect_list_selector` (lines 192–235)

`count sel` models `page.locator(sel).count()`; a probe that raises is
swallowed by the `except: continue`, which is behaviourally `count = 0` for
the `≥ 2` test.  `divClasses` is the `className` of every `div` in document
order, as read by the census script. -/

def listCandidates : List String :=
  [".quote", ".card", ".list-item", ".item", "article", "ul li", ".media",
   ".search-result", ".result", ".post"]

/-- Keys of the JS `counts` object in insertion order (first occurrence). -/
def firstOccKeys (xs : List String) : List String :=
  xs.foldl (fun acc c => if c ∈ acc then acc else acc ++ [c]) []

def countOcc (xs : List String) (c : String) : Nat :=
  (xs.filter (fun x => x = c)).length

/-- `'.' + cls.trim().split(/\s+/).join('.')`. -/
def compoundSelector (c : String) : String :=
  "." ++ String.intercalate "." (wsWords (pyTrim c))

/-- The census result:
`Object.entries(counts).filter(([cls,c])=>c>=3 && cls.trim()!=='').map(...)`,
where `counts` skips falsy (empty) class attributes. -/
def censusClasses (divClasses : List String) : List String :=
  let nonEmpty := divClasses.filter (fun c => c ≠ "")
  ((firstOccKeys nonEmpty).filter
      (fun c => decide (3 ≤ countOcc nonEmpty c) && decide (pyTrim c ≠ ""))).map
    compoundSelector

def detect_list_selector (count : String → Nat) (divClasses : List String) :
    Option String :=
  match listCandidates.find? (fun sel => decide (2 ≤ count sel)) with
  | some sel => some sel
  | Option.none =>
    match (censusClasses divClasses).head? with
    | some c => some c
    | Option.none =>
      if 6 < count "p" ∧ 0 < count "h1,h2,h3,h4" then some "body" else Option.none

/-! ### Detection probes with swallowed errors (lines 104–144)

`ProbeResult.err` models a DOM query raising; every probe site wraps the
query in `try/except` and treats an error as a non-match. -/

inductive ProbeResult : Type
  | err
  | count (n : Nat)
deriving DecidableEq, Repr

/-- Whether a `locator(sel).count() > 0` test succeeds; an exception is
swallowed and counts as no match. -/
def probeHit : ProbeResult → Bool
  | ProbeResult.err => false
  | ProbeResult.count n => decide (0 < n)

/-- Erase the error outcome of a probe, replacing it by a zero count. -/
def probeErased (probe : String → ProbeResult) : String → ProbeResult :=
  fun sel => ProbeResult.count (match probe sel with
    | ProbeResult.err => 0
    | ProbeResult.count n => n)

def tableCandidates : List String :=
  ["table.table", "table.data-table", "div.table-responsive table", "table"]

/-- `detect_best_table_selector` (lines 104–117): first candidate whose count
is positive, then a guarded fallback probe of `table`, else `None`. -/
def detect_best_table_selector (probe : String → ProbeResult) : Option String :=
  match tableCandidates.find? (fun sel => probeHit (probe sel)) with
  | some sel => some sel
  | Option.none =>
    match probe "table" with
    | ProbeResult.count n => if 0 < n then some "table" else Option.none
    | ProbeResult.err => Option.none

/-- A single-quote character, used to reconstruct the source's quoted CSS
attribute values and XPath string literals. -/
def sq : String := String.singleton (Char.ofNat 39)

def cssNextCandidates : List String :=
  ["a[rel=" ++ sq ++ "next" ++ sq ++ "]",
   "a[aria-label=" ++ sq ++ "Next" ++ sq ++ "]",
   "button[aria-label=" ++ sq ++ "Next" ++ sq ++ "]",
   ".pagination a.next", ".pagination li.next a", ".next", ".pager-next",
   "button[title=" ++ sq ++ "Next" ++ sq ++ "]",
   "a[title=" ++ sq ++ "Next" ++ sq ++ "]",
   "a.next", ".pg-next", ".page-next"]

def xpathTranslateArgs : String :=
  sq ++ "ABCDEFGHIJKLMNOPQRSTUVWXYZ" ++ sq ++ "," ++ sq ++
    "abcdefghijklmnopqrstuvwxyz" ++ sq

def xpathGlyphAlt : String :=
  "contains(., " ++ sq ++ "›" ++ sq ++ ") or contains(., " ++ sq ++ "»" ++ sq ++
    ") or contains(., " ++ sq ++ ">" ++ sq ++ ")"

def xpathNextCandidates : List String :=
  ["//a[contains(translate(., " ++ xpathTranslateArgs ++ ")," ++ sq ++ "next" ++ sq ++ ")]",
   "//button[contains(translate(., " ++ xpathTranslateArgs ++ ")," ++ sq ++ "next" ++ sq ++ ")]",
   "//a[" ++ xpathGlyphAlt ++ "]",
   "//button[" ++ xpathGlyphAlt ++ "]"]

/-- `detect_next_button` (lines 119–144): CSS candidates first, then XPath
candidates, first positive count wins; errors are swallowed per candidate. -/
def detect_next_button (cssProbe xpathProbe : String → ProbeResult) :
    Option (String × String) :=
  match cssNextCandidates.find? (fun sel => probeHit (cssProbe sel)) with
  | some sel => some ("css", sel)
  | Option.none =>
    match xpathNextCandidates.find? (fun xp => probeHit (xpathProbe xp)) with
    | some xp => some ("xpath", xp)
    | Option.none => Option.none

/-! ### Initial navigation (lines 543–553)

`goto(url, wait_until="domcontentloaded")` is guarded by `except PWError`,
which retries once with `wait_until="networkidle"`; the retry is guarded by
`except Exception`, which aborts the run (no detection, no extraction).  A
non-Playwright exception from the first attempt propagates to the top-level
handler and is likewise fatal without a retry. -/

inductive NavResult : Type
  | success
  | pwError
  | otherError
deriving DecidableEq, Repr

/-- Result of the navigation step: number of retry attempts made with the
fallback wait policy, and whether the run proceeds to shape detection. -/
def navigate_run (first retryOutcome : NavResult) : Nat × Bool :=
  match first with
  | NavResult.success => (0, true)
  | NavResult.pwError =>
    match retryOutcome with
    | NavResult.success => (1, true)
    | NavResult.pwError => (1, false)
    | NavResult.otherError => (1, false)
  | NavResult.otherError => (0, false)

/-! ### Orchestrator strategy ladder (lines 556–730) -/

inductive Strategy : Type
  | virtualized
  | multiTable
  | paginateTable
  | scrollTable
  | scrollList
  | paginateList
  | noShape
deriving DecidableEq, Repr

/-- The fixed outcome of the detection probes for one run.  `bestTableSel`
and `listSel` record what `detect_best_table_selector` /
`detect_list_selector` would return if invoked (the orchestrator only invokes
them under the guards modelled in `chooseStrategy`). -/
structure Detection where
  is5paisa : Bool
  fpRecordCount : Nat
  tableCount : Nat
  bestTableSel : Option String
  listSel : Option String
  nextBtn : Option (String × String)
deriving DecidableEq, Repr

/-- The strategy the `run` orchestrator commits to, as a function of the
detection outcomes.  Mirrors: the 5paisa special mode filling `sheets` only
when it yielded records, then the `if not sheets:` ladder with its guarded
computation of `table_sel` and `list_sel`. -/
def chooseStrategy (d : Detection) : Strategy :=
  if d.is5paisa ∧ 0 < d.fpRecordCount then Strategy.virtualized
  else
    let table_sel := if 0 < d.tableCount then d.bestTableSel else Option.none
    let list_sel := if table_sel = Option.none then d.listSel else Option.none
    if 1 < d.tableCount then Strategy.multiTable
    else if table_sel.isSome then
      (if d.nextBtn.isSome then Strategy.paginateTable else Strategy.scrollTable)
    else if list_sel.isSome then Strategy.scrollList
    else if d.nextBtn.isSome then Strategy.paginateList
    else Strategy.noShape

/-! ### Checkpoint save (lines 522–534)

`save_partial_results` writes one sheet per entry of `partial_collected`
(sheet names truncated to 31 characters); with nothing collected it logs a
warning and writes no file (`Option.none`). -/

def save_partial_results {α : Type} (collected : List (String × α)) :
    Option (List (String × α)) :=
  if collected.isEmpty then Option.none
  else some (collected.map (fun p => (p.1.take 31, p.2)))

/-! ### Image helpers (lines 50–88) -/

/-- The guard `url and url.lower().startswith("http")`. -/
def isHttpLike (url : String) : Bool :=
  !(url = "") && pyStartsWith (pyLower url) "http"

/-- `"image" in ct` (Python substring test). -/
def strContains (s pat : String) : Bool :=
  decide (pat.toList <:+: s.toList)

structure HeadResponse where
  status : Nat
  contentType : String
deriving DecidableEq, Repr

/-- The retry loop of `head_check_image`: `net i` is the outcome of the i-th
HEAD request (`Option.none` models an exception).  Returns the verdict and
the number of requests issued. -/
def headLoop (net : Nat → Option HeadResponse) : Nat → Nat → String × Nat
  | _, 0 => ("Broken", 0)
  | i, Nat.succ k =>
    match net i with
    | some r =>
      (if r.status = 200 ∧ strContains (pyLower r.contentType) "image" then "Valid"
       else "Broken", 1)
    | Option.none => ((headLoop net (i + 1) k).1, (headLoop net (i + 1) k).2 + 1)

def head_check_image (url : String) (net : Nat → Option HeadResponse)
    (retries : Nat) : String × Nat :=
  if !isHttpLike url then ("Missing", 0)
  else headLoop net 0 retries

def safe_filename (name : String) : String :=
  (String.join (name.toList.map (fun c =>
    if c.isAlphanum ∨ c ∈ ['-', '_', '.'] then String.singleton c else "_"))).take 120

/-- `url.split("?")[0].split(".")[-1]`, replaced by `"jpg"` when unusable. -/
def urlExt (url : String) : String :=
  let e := (((url.splitOn "?").headD "").splitOn ".").getLastD ""
  if e.contains '/' ∨ e.length = 0 ∨ 6 < e.length then "jpg" else e

/-- The retry loop of `download_image_async`: `net i` is the status of the
i-th GET (`Option.none` models an exception). -/
def downloadLoop (path : String) (net : Nat → Option Nat) :
    Nat → Nat → Option String × Nat
  | _, 0 => (Option.none, 0)
  | i, Nat.succ k =>
    match net i with
    | some 200 => (some path, 1)
    | some _ => ((downloadLoop path net (i + 1) k).1, (downloadLoop path net (i + 1) k).2 + 1)
    | Option.none => ((downloadLoop path net (i + 1) k).1, (downloadLoop path net (i + 1) k).2 + 1)

def download_image_async (url folder name : String) (net : Nat → Option Nat)
    (retries : Nat) : Option String × Nat :=
  if !isHttpLike url then (Option.none, 0)
  else downloadLoop (folder ++ "/" ++ (safe_filename name ++ "." ++ urlExt url)) net 0 retries

/-! ### FivePaisa table extraction (lines 366–395)

Each `tbody tr` is read through `row.querySelector('a')` /
`row.querySelector('img')`, i.e. the first descendant anchor and image.
`resolve s` models `new URL(s, window.location.origin).href`. -/

structure FpImg where
  src : Option String
deriving DecidableEq, Repr

structure FpRow where
  anchors : List String
  imgEls : List FpImg
deriving DecidableEq, Repr

structure FpRecord where
  company_name : String
  logo_url : String
deriving DecidableEq, Repr

def fpRowRecord (resolve : String → String) (row : FpRow) : Option FpRecord :=
  match row.anchors.head? with
  | Option.none => Option.none
  | some atext =>
    let name := pyTrim atext
    let logo :=
      match row.imgEls.head? with
      | Option.none => ""
      | some img =>
        let s := img.src.getD ""
        if s ≠ "" ∧ ¬ pyStartsWith s "http" then resolve s else s
    if name ≠ "" ∧ 2 < name.length then
      some ⟨name, if logo = "" then "N/A" else logo⟩
    else Option.none

def extract_from_table_selector (resolve : String → String) (rows : List FpRow) :
    List FpRecord :=
  rows.filterMap (fpRowRecord resolve)

/-! ## Helper lemmas -/

/-! ### Merge lemmas -/

theorem mergeLoop_seen_mono {α : Type} (key : α → String) (inj : α → Record)
    (k : String) : ∀ (l : List α) (seen : List String) (combined : List Record),
    k ∈ seen → k ∈ (mergeLoop key inj seen combined l).1 := by
  intro l
  induction l with
  | nil => intro seen combined hk; simpa [mergeLoop] using hk
  | cons r rs ih =>
    intro seen combined hk
    by_cases h : key r ∈ seen
    · simpa [mergeLoop, h] using ih seen combined hk
    · simp only [mergeLoop, if_neg h]
      exact ih _ _ (List.mem_cons_of_mem _ hk)

theorem mergeLoop_keys_seen {α : Type} (key : α → String) (inj : α → Record) :
    ∀ (l : List α) (seen : List String) (combined : List Record) (r : α),
    r ∈ l → key r ∈ (mergeLoop key inj seen combined l).1 := by
  intro l
  induction l with
  | nil => intro seen combined r hr; cases hr
  | cons a rs ih =>
    intro seen combined r hr
    rcases List.mem_cons.mp hr with h | h
    · subst h
      by_cases ha : key r ∈ seen
      · simp only [mergeLoop, if_pos ha]
        exact mergeLoop_seen_mono key inj _ rs _ _ ha
      · simp only [mergeLoop, if_neg ha]
        exact mergeLoop_seen_mono key inj _ rs _ _ (List.mem_cons_self _ _)
    · by_cases ha : key a ∈ seen
      · simp only [mergeLoop, if_pos ha]; exact ih _ _ _ h
      · simp only [mergeLoop, if_neg ha]; exact ih _ _ _ h

theorem mergeLoop_noop {α : Type} (key : α → String) (inj : α → Record) :
    ∀ (l : List α) (seen : List String) (combined : List Record),
    (∀ r ∈ l, key r ∈ seen) → mergeLoop key inj seen combined l = (seen, combined) := by
  intro l
  induction l with
  | nil => intro seen combined _; rfl
  | cons a rs ih =>
    intro seen combined h
    have ha : key a ∈ seen := h a (List.mem_cons_self _ _)
    simp only [mergeLoop, if_pos ha]
    exact ih seen combined (fun r hr => h r (List.mem_cons_of_mem _ hr))

theorem mergeData_idem (seen : List String) (combined : List Record)
    (d : ExtractResult) :
    mergeData (mergeData seen combined d).1 (mergeData seen combined d).2 d =
      mergeData seen combined d := by
  cases d with
  | noData => rfl
  | table hs rows =>
    exact mergeLoop_noop rowKey Sum.inl rows _ _
      (fun r hr => mergeLoop_keys_seen rowKey Sum.inl rows seen combined r hr)
  | items its =>
    exact mergeLoop_noop itemKey Sum.inr its _ _
      (fun r hr => mergeLoop_keys_seen itemKey Sum.inr its seen combined r hr)

/-! ### Loop step characterization -/

theorem scrollIter_stop (extract : Nat → ExtractResult) (stop : Nat → Bool)
    (max_cycles : Nat) (s : LoopState) (h : stop s.cycles = true) :
    scrollIter extract stop max_cycles s = Sum.inr s.combined := by
  unfold scrollIter
  simp [h]

theorem scrollIter_inl_spec (extract : Nat → ExtractResult) (stop : Nat → Bool)
    (max_cycles : Nat) (s s' : LoopState)
    (h : scrollIter extract stop max_cycles s = Sum.inl s') :
    stop s.cycles = false ∧ s.cycles + 1 ≤ 500 ∧
    ¬((mergeData s.seen s.combined (extract s.cycles)).2.length = s.last_count ∧
       s.stagnant + 1 ≥ max_cycles) ∧
    s' = ⟨(mergeData s.seen s.combined (extract s.cycles)).1,
          (mergeData s.seen s.combined (extract s.cycles)).2,
          (mergeData s.seen s.combined (extract s.cycles)).2.length,
          (if (mergeData s.seen s.combined (extract s.cycles)).2.length = s.last_count
           then s.stagnant + 1 else 0),
          s.cycles + 1⟩ := by
  unfold scrollIter at h
  split at h
  · exact Sum.noConfusion h
  next hstop =>
    split at h
    · exact Sum.noConfusion h
    next hbrk =>
      split at h
      · exact Sum.noConfusion h
      next hcap =>
        refine ⟨by simpa using hstop, ?_, hbrk, (Sum.inl.inj h).symm⟩
        rcases Nat.lt_or_ge 500 (s.cycles + 1) with hgt | hle
        · exact absurd (Or.inl hgt) hcap
        · exact hle

theorem mergeData_noop (seen : List String) (combined : List Record)
    (d : ExtractResult) (h : ∀ k ∈ dataKeys d, k ∈ seen) :
    mergeData seen combined d = (seen, combined) := by
  cases d with
  | noData => rfl
  | table hs rows =>
    exact mergeLoop_noop rowKey Sum.inl rows seen combined
      (fun r hr => h (rowKey r) (by simp [dataKeys]; exact ⟨r, hr, rfl⟩))
  | items its =>
    exact mergeLoop_noop itemKey Sum.inr its seen combined
      (fun r hr => h (itemKey r) (by simp [dataKeys]; exact ⟨r, hr, rfl⟩))

/-! ### Termination -/

theorem scrollRun_isSome (extract : Nat → ExtractResult) (stop : Nat → Bool)
    (max_cycles : Nat) :
    ∀ (n : Nat) (s : LoopState), 500 < s.cycles + n →
      ((scrollRun extract stop max_cycles (n + 1) s).1).isSome := by
  intro n
  induction n with
  | zero =>
    intro s h
    cases hiter : scrollIter extract stop max_cycles s with
    | inr res => simp [scrollRun, hiter]
    | inl s' =>
      have hc := (scrollIter_inl_spec extract stop max_cycles s s' hiter).2.1
      omega
  | succ n ih =>
    intro s h
    cases hiter : scrollIter extract stop max_cycles s with
    | inr res => simp [scrollRun, hiter]
    | inl s' =>
      have hc := (scrollIter_inl_spec extract stop max_cycles s s' hiter).2.2.2
      have hcy : s'.cycles = s.cycles + 1 := by rw [hc]
      simp only [scrollRun, hiter]
      exact ih s' (by omega)

theorem scroll_until_stable_isSome (extract : Nat → ExtractResult)
    (stop : Nat → Bool) (max_cycles : Nat) :
    ((scroll_until_stable extract stop max_cycles).1).isSome := by
  have h := scrollRun_isSome extract stop max_cycles 501 initLoopState
    (by simp [initLoopState])
  exact h

/-- Once no extraction from the current cycle on yields an unseen key, the
loop exits within `max max_cycles 1` further cycles (possibly sooner via the
stop flag or the absolute caps). -/
theorem scrollRun_stagnation (extract : Nat → ExtractResult) (stop : Nat → Bool)
    (max_cycles : Nat) :
    ∀ (n : Nat) (s : LoopState), 1 ≤ n →
      s.last_count = s.combined.length →
      (∀ i, s.cycles ≤ i → ∀ k ∈ dataKeys (extract i), k ∈ s.seen) →
      max_cycles ≤ s.stagnant + n →
      ((scrollRun extract stop max_cycles n s).1).isSome := by
  intro n
  induction n with
  | zero => intro s h1; omega
  | succ m ih =>
    intro s _ hlast hkeys hmc
    cases hiter : scrollIter extract stop max_cycles s with
    | inr res => simp [scrollRun, hiter]
    | inl s' =>
      obtain ⟨hstop, hcap, hbrk, hs'⟩ :=
        scrollIter_inl_spec extract stop max_cycles s s' hiter
      have hnoop : mergeData s.seen s.combined (extract s.cycles) =
          (s.seen, s.combined) :=
        mergeData_noop s.seen s.combined (extract s.cycles)
          (hkeys s.cycles le_rfl)
      have hlen : (mergeData s.seen s.combined (extract s.cycles)).2.length =
          s.last_count := by rw [hnoop, hlast]
      have hstag : s.stagnant + 1 < max_cycles := by
        by_contra hge
        exact hbrk ⟨hlen, by omega⟩
      have hm1 : 1 ≤ m := by omega
      have hs'fields : s'.seen = s.seen ∧ s'.combined = s.combined ∧
          s'.last_count = s.combined.length ∧ s'.stagnant = s.stagnant + 1 ∧
          s'.cycles = s.cycles + 1 := by
        rw [hs']
        simp [hnoop, hlen, hlast]
      simp only [scrollRun, hiter]
      refine ih s' hm1 ?_ ?_ ?_
      · rw [hs'fields.2.2.1, hs'fields.2.1]
      · intro i hi k hk
        rw [hs'fields.1]
        exact hkeys i (by omega) k hk
      · rw [hs'fields.2.2.2.1]
        omega

/-- When the stop flag is observed at the top of a cycle, the loop returns the
records accumulated so far and performs no further drive steps. -/
theorem scrollRun_stop_immediate (extract : Nat → ExtractResult)
    (stop : Nat → Bool) (max_cycles : Nat) (n : Nat) (s : LoopState)
    (h : stop s.cycles = true) :
    scrollRun extract stop max_cycles (n + 1) s = (some s.combined, 0) := by
  simp [scrollRun, scrollIter_stop extract stop max_cycles s h, h]

/-! ### Append-only extension and key invariants of the merge -/

theorem mergeLoop_extends {α : Type} (key : α → String) (inj : α → Record) :
    ∀ (l : List α) (seen : List String) (combined : List Record),
    ∃ t, (mergeLoop key inj seen combined l).2 = combined ++ t := by
  intro l
  induction l with
  | nil => intro seen combined; exact ⟨[], by simp [mergeLoop]⟩
  | cons a rs ih =>
    intro seen combined
    by_cases ha : key a ∈ seen
    · simpa only [mergeLoop, if_pos ha] using ih seen combined
    · obtain ⟨t, ht⟩ := ih (key a :: seen) (combined ++ [inj a])
      exact ⟨inj a :: t, by simp only [mergeLoop, if_neg ha, ht, List.append_assoc,
        List.singleton_append]⟩

theorem mergeLoop_minv {α : Type} (key : α → String) (inj : α → Record)
    (hk : ∀ a, recKey (inj a) = key a) :
    ∀ (l : List α) (seen : List String) (combined : List Record),
    MInv seen combined →
    MInv (mergeLoop key inj seen combined l).1 (mergeLoop key inj seen combined l).2 := by
  intro l
  induction l with
  | nil => intro seen combined hi; exact hi
  | cons a rs ih =>
    intro seen combined hi
    by_cases ha : key a ∈ seen
    · simpa only [mergeLoop, if_pos ha] using ih seen combined hi
    · simp only [mergeLoop, if_neg ha]
      refine ih (key a :: seen) (combined ++ [inj a]) ⟨?_, ?_⟩
      · rw [List.pairwise_append]
        refine ⟨hi.1, List.pairwise_singleton _ _, ?_⟩
        intro x hx y hy
        have hxk : recKey x ∈ seen := hi.2 x hx
        have hy' : y = inj a := by simpa using hy
        subst hy'
        rw [hk a]
        intro hcontra
        exact ha (hcontra ▸ hxk)
      · intro r hr
        rcases List.mem_append.mp hr with h | h
        · exact List.mem_cons_of_mem _ (hi.2 r h)
        · have : r = inj a := by simpa using h
          subst this
          rw [hk a]
          exact List.mem_cons_self _ _

theorem mergeData_extends (seen : List String) (combined : List Record)
    (d : ExtractResult) :
    ∃ t, (mergeData seen combined d).2 = combined ++ t := by
  cases d with
  | noData => exact ⟨[], by simp [mergeData]⟩
  | table hs rows => exact mergeLoop_extends rowKey Sum.inl rows seen combined
  | items its => exact mergeLoop_extends itemKey Sum.inr its seen combined

theorem mergeData_minv (seen : List String) (combined : List Record)
    (d : ExtractResult) (hi : MInv seen combined) :
    MInv (mergeData seen combined d).1 (mergeData seen combined d).2 := by
  cases d with
  | noData => exact hi
  | table hs rows =>
    exact mergeLoop_minv rowKey Sum.inl (fun a => rfl) rows seen combined hi
  | items its =>
    exact mergeLoop_minv itemKey Sum.inr (fun a => rfl) its seen combined hi

theorem mergeData_length_le (seen : List String) (combined : List Record)
    (d : ExtractResult) :
    combined.length ≤ (mergeData seen combined d).2.length := by
  obtain ⟨t, ht⟩ := mergeData_extends seen combined d
  rw [ht, List.length_append]
  omega

/-! ### Step-level consequences for the loop -/

theorem scrollIter_inr_spec (extract : Nat → ExtractResult) (stop : Nat → Bool)
    (max_cycles : Nat) (s : LoopState) (res : List Record)
    (h : scrollIter extract stop max_cycles s = Sum.inr res) :
    res = s.combined ∨
    res = (mergeData s.seen s.combined (extract s.cycles)).2 := by
  unfold scrollIter at h
  split at h
  · exact Or.inl (Sum.inr.inj h).symm
  · split at h
    · exact Or.inr (Sum.inr.inj h).symm
    · split at h
      · exact Or.inr (Sum.inr.inj h).symm
      · exact Sum.noConfusion h

theorem scrollIter_extends (extract : Nat → ExtractResult) (stop : Nat → Bool)
    (max_cycles : Nat) (s : LoopState) :
    ∃ t, iterCombined (scrollIter extract stop max_cycles s) = s.combined ++ t := by
  cases hiter : scrollIter extract stop max_cycles s with
  | inr res =>
    rcases scrollIter_inr_spec extract stop max_cycles s res hiter with h | h
    · exact ⟨[], by simp [iterCombined, h]⟩
    · obtain ⟨t, ht⟩ := mergeData_extends s.seen s.combined (extract s.cycles)
      exact ⟨t, by simp [iterCombined, h, ht]⟩
  | inl s' =>
    obtain ⟨_, _, _, hs'⟩ := scrollIter_inl_spec extract stop max_cycles s s' hiter
    obtain ⟨t, ht⟩ := mergeData_extends s.seen s.combined (extract s.cycles)
    refine ⟨t, ?_⟩
    rw [hs']
    simpa [iterCombined] using ht

theorem scrollIter_minv_inl (extract : Nat → ExtractResult) (stop : Nat → Bool)
    (max_cycles : Nat) (s s' : LoopState) (hi : MInv s.seen s.combined)
    (h : scrollIter extract stop max_cycles s = Sum.inl s') :
    MInv s'.seen s'.combined := by
  obtain ⟨_, _, _, hs'⟩ := scrollIter_inl_spec extract stop max_cycles s s' h
  rw [hs']
  exact mergeData_minv s.seen s.combined (extract s.cycles) hi

theorem scrollIter_pairwise_inr (extract : Nat → ExtractResult) (stop : Nat → Bool)
    (max_cycles : Nat) (s : LoopState) (res : List Record)
    (hi : MInv s.seen s.combined)
    (h : scrollIter extract stop max_cycles s = Sum.inr res) :
    res.Pairwise (fun a b => recKey a ≠ recKey b) := by
  rcases scrollIter_inr_spec extract stop max_cycles s res h with heq | heq
  · rw [heq]; exact hi.1
  · rw [heq]
    exact (mergeData_minv s.seen s.combined (extract s.cycles) hi).1

theorem scrollRun_pairwise (extract : Nat → ExtractResult) (stop : Nat → Bool)
    (max_cycles : Nat) :
    ∀ (n : Nat) (s : LoopState) (res : List Record), MInv s.seen s.combined →
    (scrollRun extract stop max_cycles n s).1 = some res →
    res.Pairwise (fun a b => recKey a ≠ recKey b) := by
  intro n
  induction n with
  | zero => intro s res _ h; simp [scrollRun] at h
  | succ n ih =>
    intro s res hi h
    cases hiter : scrollIter extract stop max_cycles s with
    | inr res' =>
      simp only [scrollRun, hiter] at h
      have : res' = res := by simpa using h
      subst this
      exact scrollIter_pairwise_inr extract stop max_cycles s res' hi hiter
    | inl s' =>
      simp only [scrollRun, hiter] at h
      exact ih s' res (scrollIter_minv_inl extract stop max_cycles s s' hi hiter) h

/-- If the cycle counter or the record count has passed its absolute cap,
the iteration necessarily breaks. -/
theorem scrollIter_cap (extract : Nat → ExtractResult) (stop : Nat → Bool)
    (max_cycles : Nat) (s : LoopState)
    (h : 500 < s.cycles + 1 ∨ 60000 < s.combined.length) :
    (scrollIter extract stop max_cycles s).isRight = true := by
  unfold scrollIter
  split
  · rfl
  · split
    · rfl
    · split
      · rfl
      next hcap =>
        exfalso
        apply hcap
        rcases h with h | h
        · exact Or.inl h
        · exact Or.inr (lt_of_lt_of_le h
            (mergeData_length_le s.seen s.combined (extract s.cycles)))

/-! ### Generic list fact used for the census characterization -/

theorem head?_filter_spec {α : Type} (p : α → Bool) :
    ∀ (l : List α) (x : α), (l.filter p).head? = some x →
    p x = true ∧ ∃ pre post, l = pre ++ x :: post ∧ ∀ y ∈ pre, p y = false := by
  intro l
  induction l with
  | nil => intro x h; simp [List.filter] at h
  | cons a t ih =>
    intro x h
    by_cases ha : p a = true
    · rw [List.filter_cons_of_pos ha] at h
      have hxa : a = x := by simpa using h
      subst hxa
      exact ⟨ha, [], t, rfl, by intro y hy; cases hy⟩
    · rw [List.filter_cons_of_neg ha] at h
      obtain ⟨hp, pre, post, heq, hpre⟩ := ih x h
      refine ⟨hp, a :: pre, post, by rw [heq]; rfl, ?_⟩
      intro y hy
      rcases List.mem_cons.mp hy with hy | hy
      · subst hy; exact Bool.eq_false_iff.mpr ha
      · exact hpre y hy

/-! ## Claim theorems -/

/-- C1: merging an extraction pass into the cumulative result set is
idempotent.  A record whose dedup key (joined cell text for table rows,
title+bar+text for list items) is already in the seen-key set is discarded,
and re-running the merge on the same extraction output changes neither the
seen-key set nor the result set. -/
theorem c1_merge_idempotent (seen : List String) (combined : List Record)
    (d : ExtractResult) :
    (∀ (r : TableRow) (rs : List TableRow), rowKey r ∈ seen →
      mergeLoop rowKey Sum.inl seen combined (r :: rs) =
        mergeLoop rowKey Sum.inl seen combined rs) ∧
    (∀ (it : ListItem) (its : List ListItem), itemKey it ∈ seen →
      mergeLoop itemKey Sum.inr seen combined (it :: its) =
        mergeLoop itemKey Sum.inr seen combined its) ∧
    mergeData (mergeData seen combined d).1 (mergeData seen combined d).2 d =
      mergeData seen combined d := by
  refine ⟨?_, ?_, mergeData_idem seen combined d⟩
  · intro r rs hr
    simp [mergeLoop, hr]
  · intro it its hit
    simp [mergeLoop, hit]

/-- C1 witness: a row whose key is already seen is dropped by the merge. -/
theorem c1_merge_idempotent_witness :
    mergeLoop rowKey Sum.inl ["a"] [] [⟨["a"], [], []⟩] =
      mergeLoop rowKey Sum.inl ["a"] [] [] :=
  (c1_merge_idempotent ["a"] [] ExtractResult.noData).1 ⟨["a"], [], []⟩ []
    (by decide)

/-- C2: the convergence loop terminates for every extraction stream, stop
stream and stagnation threshold (fuel 502 always suffices); once extractions
stop yielding unseen dedup keys it exits within `max max_cycles 1` further
cycles; it exits at once when the cancellation flag is observed; and it
breaks whenever the cycle count passes the absolute cap 500 or the record
count passes 60000. -/
theorem c2_convergence_terminates (extract : Nat → ExtractResult)
    (stop : Nat → Bool) (max_cycles : Nat) :
    ((scroll_until_stable extract stop max_cycles).1).isSome = true ∧
    (∀ s : LoopState, s.last_count = s.combined.length →
      (∀ i, s.cycles ≤ i → ∀ k ∈ dataKeys (extract i), k ∈ s.seen) →
      ((scrollRun extract stop max_cycles (max max_cycles 1) s).1).isSome = true) ∧
    (∀ s : LoopState, stop s.cycles = true →
      scrollIter extract stop max_cycles s = Sum.inr s.combined) ∧
    (∀ s : LoopState, 500 < s.cycles + 1 ∨ 60000 < s.combined.length →
      (scrollIter extract stop max_cycles s).isRight = true) := by
  refine ⟨scroll_until_stable_isSome extract stop max_cycles, ?_, ?_, ?_⟩
  · intro s hlast hkeys
    exact scrollRun_stagnation extract stop max_cycles (max max_cycles 1) s
      (le_max_right _ _) hlast hkeys
      (le_trans (le_max_left max_cycles 1) (Nat.le_add_left _ _))
  · intro s h
    exact scrollIter_stop extract stop max_cycles s h
  · intro s h
    exact scrollIter_cap extract stop max_cycles s h

/-- C2 witness: with a stream that never yields data, the loop from the
initial state exits within the stagnation threshold. -/
theorem c2_convergence_terminates_witness :
    ((scrollRun (fun _ => ExtractResult.noData) (fun _ => false) 3 (max 3 1)
      initLoopState).1).isSome = true :=
  (c2_convergence_terminates (fun _ => ExtractResult.noData) (fun _ => false) 3).2.1
    initLoopState rfl (by intro i _ k hk; simp [dataKeys] at hk)

/-- C9: the cumulative result set of the convergence loop is append-only
(each cycle outcome extends `combined` only at the end, so discovery order is
preserved and the length never decreases), and the invariant that records
have pairwise-distinct dedup keys, each recorded in the seen-key set, is
preserved by every cycle; consequently any returned result set has
pairwise-distinct keys. -/
theorem c9_append_only_invariant (extract : Nat → ExtractResult)
    (stop : Nat → Bool) (max_cycles : Nat) :
    (∀ s : LoopState, ∃ t,
      iterCombined (scrollIter extract stop max_cycles s) = s.combined ++ t) ∧
    (∀ s : LoopState,
      s.combined.length ≤ (iterCombined (scrollIter extract stop max_cycles s)).length) ∧
    (∀ s s' : LoopState, MInv s.seen s.combined →
      scrollIter extract stop max_cycles s = Sum.inl s' → MInv s'.seen s'.combined) ∧
    (∀ res : List Record,
      (scroll_until_stable extract stop max_cycles).1 = some res →
      res.Pairwise (fun a b => recKey a ≠ recKey b)) := by
  refine ⟨scrollIter_extends extract stop max_cycles, ?_, ?_, ?_⟩
  · intro s
    obtain ⟨t, ht⟩ := scrollIter_extends extract stop max_cycles s
    rw [ht, List.length_append]
    omega
  · intro s s' hi h
    exact scrollIter_minv_inl extract stop max_cycles s s' hi h
  · intro res h
    refine scrollRun_pairwise extract stop max_cycles 502 initLoopState res ?_ h
    exact ⟨List.Pairwise.nil, fun r hr => absurd hr (List.not_mem_nil r)⟩

/-- C9 witness: a concrete converged run yields a result set with pairwise
distinct dedup keys. -/
theorem c9_append_only_invariant_witness :
    List.Pairwise (fun a b => recKey a ≠ recKey b)
      ([Sum.inr ⟨"t", "x", [], []⟩] : List Record) :=
  (c9_append_only_invariant (fun _ => ExtractResult.items [⟨"t", "x", [], []⟩])
    (fun _ => false) 1).2.2.2 [Sum.inr ⟨"t", "x", [], []⟩] rfl

/-- C3: the orchestrator's strategy choice is a deterministic function of the
detection outcomes (`chooseStrategy` is a pure function) and follows the
ladder first-applicable-wins: virtualization marker with records →
virtualized; more than one table → per-table extraction; exactly one table
with a next control → click-paginate the table; exactly one table without →
scroll-converge it; a list selector → scroll-converge the list; a next
control otherwise → click-paginate as a list; else no extractable shape.  A
virtualized attempt yielding zero records falls through to the ladder. -/
theorem c3_strategy_ladder (d : Detection) :
    (d.is5paisa = true → 0 < d.fpRecordCount →
      chooseStrategy d = Strategy.virtualized) ∧
    (¬(d.is5paisa = true ∧ 0 < d.fpRecordCount) → 1 < d.tableCount →
      chooseStrategy d = Strategy.multiTable) ∧
    (¬(d.is5paisa = true ∧ 0 < d.fpRecordCount) → d.tableCount = 1 →
      d.bestTableSel.isSome = true → d.nextBtn.isSome = true →
      chooseStrategy d = Strategy.paginateTable) ∧
    (¬(d.is5paisa = true ∧ 0 < d.fpRecordCount) → d.tableCount = 1 →
      d.bestTableSel.isSome = true → d.nextBtn = Option.none →
      chooseStrategy d = Strategy.scrollTable) ∧
    (¬(d.is5paisa = true ∧ 0 < d.fpRecordCount) → d.tableCount ≤ 1 →
      (d.tableCount = 0 ∨ d.bestTableSel = Option.none) →
      d.listSel.isSome = true →
      chooseStrategy d = Strategy.scrollList) ∧
    (¬(d.is5paisa = true ∧ 0 < d.fpRecordCount) → d.tableCount ≤ 1 →
      (d.tableCount = 0 ∨ d.bestTableSel = Option.none) →
      d.listSel = Option.none → d.nextBtn.isSome = true →
      chooseStrategy d = Strategy.paginateList) ∧
    (¬(d.is5paisa = true ∧ 0 < d.fpRecordCount) → d.tableCount ≤ 1 →
      (d.tableCount = 0 ∨ d.bestTableSel = Option.none) →
      d.listSel = Option.none → d.nextBtn = Option.none →
      chooseStrategy d = Strategy.noShape) := by
  obtain ⟨p5, fp, tc, bs, ls, nb⟩ := d
  refine ⟨?_, ?_, ?_, ?_, ?_, ?_, ?_⟩
  · intro h5 hfp
    subst h5
    simp [chooseStrategy, hfp]
  · intro hnv ht
    simp only [chooseStrategy]
    rw [if_neg hnv, if_pos ht]
  · intro hnv ht hbs hnb
    subst ht
    obtain ⟨x, hx⟩ := Option.isSome_iff_exists.mp hbs
    subst hx
    obtain ⟨y, hy⟩ := Option.isSome_iff_exists.mp hnb
    subst hy
    simp only [chooseStrategy]
    rw [if_neg hnv]
    simp
  · intro hnv ht hbs hnb
    subst ht
    obtain ⟨x, hx⟩ := Option.isSome_iff_exists.mp hbs
    subst hx
    subst hnb
    simp only [chooseStrategy]
    rw [if_neg hnv]
    simp
  · intro hnv htle hts hls
    obtain ⟨x, hx⟩ := Option.isSome_iff_exists.mp hls
    subst hx
    have htle' : tc ≤ 1 := htle
    have hnlt : ¬(1 < tc) := by omega
    simp only [chooseStrategy]
    rw [if_neg hnv]
    rcases hts with ht0 | hbn
    · have ht0' : tc = 0 := ht0
      subst ht0'
      simp
    · have hbn' : bs = Option.none := hbn
      subst hbn'
      simp [hnlt]
  · intro hnv htle hts hls hnb
    subst hls
    obtain ⟨y, hy⟩ := Option.isSome_iff_exists.mp hnb
    subst hy
    have htle' : tc ≤ 1 := htle
    have hnlt : ¬(1 < tc) := by omega
    simp only [chooseStrategy]
    rw [if_neg hnv]
    rcases hts with ht0 | hbn
    · have ht0' : tc = 0 := ht0
      subst ht0'
      simp
    · have hbn' : bs = Option.none := hbn
      subst hbn'
      simp [hnlt]
  · intro hnv htle hts hls hnb
    subst hls
    subst hnb
    have htle' : tc ≤ 1 := htle
    have hnlt : ¬(1 < tc) := by omega
    simp only [chooseStrategy]
    rw [if_neg hnv]
    rcases hts with ht0 | hbn
    · have ht0' : tc = 0 := ht0
      subst ht0'
      simp
    · have hbn' : bs = Option.none := hbn
      subst hbn'
      simp [hnlt]

/-- C3 witness: one table plus a next control selects click-pagination. -/
theorem c3_strategy_ladder_witness :
    chooseStrategy ⟨false, 0, 1, some "table", Option.none, some ("css", ".next")⟩ =
      Strategy.paginateTable :=
  (c3_strategy_ladder ⟨false, 0, 1, some "table", Option.none, some ("css", ".next")⟩).2.2.1
    (by simp) rfl rfl rfl

/-- C4 counterexample: if cancellation is observed before any record was
discovered, no checkpoint save happens at all — `save_partial_results` on the
empty collection writes nothing (the code logs "No partial data available to
save" and returns), so the claim that a save containing exactly the (empty)
set of discovered records is performed fails on this input. -/
theorem c4_cancel_counterexample :
    scroll_until_stable (fun _ => ExtractResult.noData) (fun _ => true) 20 =
      (some ([] : List Record), 0) ∧
    save_partial_results ([] : List (String × List Record)) = Option.none := by
  exact ⟨rfl, rfl⟩

/-- C4 (amended): once the cancellation flag is observed at the top of a
cycle, the loop executes no further drive steps and returns exactly the
records accumulated through the last completed cycle; and the checkpoint save
then contains exactly the collected sheets (names truncated to 31
characters), provided at least one record set was collected — with nothing
collected the save is skipped with a warning. -/
theorem c4_cancellation_checkpoint (extract : Nat → ExtractResult)
    (stop : Nat → Bool) (max_cycles n : Nat) (s : LoopState)
    (hstop : stop s.cycles = true) :
    scrollRun extract stop max_cycles (n + 1) s = (some s.combined, 0) ∧
    (∀ collected : List (String × List Record), collected ≠ [] →
      save_partial_results collected =
        some (collected.map (fun p => (p.1.take 31, p.2)))) := by
  refine ⟨scrollRun_stop_immediate extract stop max_cycles n s hstop, ?_⟩
  intro collected hc
  unfold save_partial_results
  rw [if_neg (by simpa [List.isEmpty_iff] using hc)]

/-- C4 witness: a cancelled cycle returns the accumulated records with zero
drive steps, and a nonempty collection is checkpointed verbatim. -/
theorem c4_cancellation_checkpoint_witness :
    scrollRun (fun _ => ExtractResult.noData) (fun _ => true) 20 1 initLoopState =
      (some ([] : List Record), 0) ∧
    save_partial_results [("Items", ([Sum.inr ⟨"t", "x", [], []⟩] : List Record))] =
      some ([("Items", ([Sum.inr ⟨"t", "x", [], []⟩] : List Record))].map
        (fun p => (p.1.take 31, p.2))) := by
  have h := c4_cancellation_checkpoint (fun _ => ExtractResult.noData)
    (fun _ => true) 20 0 initLoopState rfl
  exact ⟨h.1, h.2 [("Items", [Sum.inr ⟨"t", "x", [], []⟩])] (by simp)⟩

/-- C5: a table whose head section yields no header cells gets synthesized
positional headers Column_1..Column_N matching the first body row's cell
count; when head cells exist, their (trimmed) texts are returned as read and
no synthesis occurs. -/
theorem c5_header_synthesis (tbl : DomTable) :
    (tbl.theadThs = [] → ∀ (first : DomRow) (rest : List DomRow),
      tbl.bodyRows = first :: rest →
      (extract_table_js (some tbl)).map Prod.fst =
        some ((List.range first.tds.length).map (fun i => "Column_" ++ toString (i + 1)))) ∧
    (tbl.theadThs ≠ [] →
      (extract_table_js (some tbl)).map Prod.fst = some (tbl.theadThs.map pyTrim)) := by
  constructor
  · intro hh first rest hb
    simp [extract_table_js, hh, hb]
  · intro hh
    simp [extract_table_js, hh]

/-- C5 witness: a headless two-column table synthesizes Column_1, Column_2; a
table with head cells keeps them. -/
theorem c5_header_synthesis_witness :
    (extract_table_js (some ⟨[], [⟨["x", "y"], [], []⟩]⟩)).map Prod.fst =
      some ["Column_1", "Column_2"] ∧
    (extract_table_js (some ⟨["Name", "Value"], []⟩)).map Prod.fst =
      some ["Name", "Value"] := by
  constructor
  · rw [(c5_header_synthesis ⟨[], [⟨["x", "y"], [], []⟩]⟩).1 rfl ⟨["x", "y"], [], []⟩ [] rfl]
    rfl
  · rw [(c5_header_synthesis ⟨["Name", "Value"], []⟩).2 (by simp)]
    rfl

/-- C6 counterexample: when no fixed list/card candidate matches, the census
fallback on a page whose div class attributes are A,B,A,A,B,B,B returns `.A`
— the first class to appear with count at least 3 — although class B is
strictly more repeated (4 occurrences against 3).  The fallback therefore
does not return the most repeated class set. -/
theorem c6_census_counterexample :
    detect_list_selector (fun _ => 0) ["A", "B", "A", "A", "B", "B", "B"] = some ".A" ∧
    compoundSelector "B" = ".B" ∧
    countOcc (["A", "B", "A", "A", "B", "B", "B"].filter (fun x => x ≠ "")) "A" = 3 ∧
    countOcc (["A", "B", "A", "A", "B", "B", "B"].filter (fun x => x ≠ "")) "B" = 4 := by
  refine ⟨rfl, rfl, rfl, rfl⟩

/-- C6 (amended): when no fixed list/card candidate reaches 2 matches and the
census list is nonempty, `detect_list_selector` returns the compound selector
reconstructed from the FIRST class attribute, in order of first appearance
among all div class attributes, whose occurrence count is at least 3 and
whose trimmed text is nonempty; every class first appearing earlier fails
that test, but a strictly more repeated class appearing later is not
preferred. -/
theorem c6_census_fallback (count : String → Nat) (divClasses : List String)
    (hnone : ∀ s ∈ listCandidates, count s < 2) (sel : String)
    (hsel : (censusClasses divClasses).head? = some sel) :
    detect_list_selector count divClasses = some sel ∧
    ∃ c pre post,
      firstOccKeys (divClasses.filter (fun x => x ≠ "")) = pre ++ c :: post ∧
      sel = compoundSelector c ∧
      3 ≤ countOcc (divClasses.filter (fun x => x ≠ "")) c ∧
      pyTrim c ≠ "" ∧
      ∀ c' ∈ pre,
        ¬(3 ≤ countOcc (divClasses.filter (fun x => x ≠ "")) c' ∧ pyTrim c' ≠ "") := by
  constructor
  · have hfind : listCandidates.find? (fun sel => decide (2 ≤ count sel)) =
        Option.none := by
      rw [List.find?_eq_none]
      intro x hx
      simp only [decide_eq_true_eq]
      exact Nat.not_le.mpr (hnone x hx)
    simp only [detect_list_selector, hfind, hsel]
  · have hsel' := hsel
    simp only [censusClasses] at hsel'
    rw [List.head?_map] at hsel'
    cases hc : ((firstOccKeys (divClasses.filter (fun x => x ≠ ""))).filter
        (fun c => decide (3 ≤ countOcc (divClasses.filter (fun x => x ≠ "")) c) &&
          decide (pyTrim c ≠ ""))).head? with
    | none => rw [hc] at hsel'; exact Option.noConfusion hsel'
    | some c =>
      rw [hc] at hsel'
      have hselc : sel = compoundSelector c := (Option.some.inj hsel').symm
      obtain ⟨hp, pre, post, heq, hpre⟩ := head?_filter_spec _ _ c hc
      simp only [Bool.and_eq_true, decide_eq_true_eq] at hp
      refine ⟨c, pre, post, heq, hselc, hp.1, hp.2, ?_⟩
      intro c' hc' hcontra
      have : (decide (3 ≤ countOcc (divClasses.filter (fun x => x ≠ "")) c') &&
          decide (pyTrim c' ≠ "")) = true := by
        simp only [Bool.and_eq_true, decide_eq_true_eq]
        exact hcontra
      rw [hpre c' hc'] at this
      exact Bool.noConfusion this

/-- C6 witness: on the A,B page fixture with no candidate matches, the
fallback returns the first qualifying class selector. -/
theorem c6_census_fallback_witness :
    detect_list_selector (fun _ => 0) ["A", "B", "A", "A", "B", "B", "B"] =
      some ".A" :=
  (c6_census_fallback (fun _ => 0) ["A", "B", "A", "A", "B", "B", "B"]
    (fun _ _ => (by decide : (0 : Nat) < 2)) ".A" rfl).1

/-! ### Probe-erasure helpers for C7 -/

theorem find?_congr {α : Type} (p q : α → Bool) (h : ∀ x, p x = q x) :
    ∀ l : List α, l.find? p = l.find? q := by
  intro l
  induction l with
  | nil => rfl
  | cons a t ih =>
    simp only [List.find?]
    rw [h a]
    cases q a
    · simpa using ih
    · rfl

theorem probeHit_erased (probe : String → ProbeResult) (sel : String) :
    probeHit (probeErased probe sel) = probeHit (probe sel) := by
  cases h : probe sel <;> simp [probeErased, probeHit, h]

theorem detect_best_erased (probe : String → ProbeResult) :
    detect_best_table_selector (probeErased probe) =
      detect_best_table_selector probe := by
  unfold detect_best_table_selector
  rw [find?_congr _ _ (fun sel => probeHit_erased probe sel) tableCandidates]
  cases hfind : tableCandidates.find? (fun sel => probeHit (probe sel)) with
  | some sel => rfl
  | none =>
    cases hp : probe "table" with
    | err => simp [probeErased, hp]
    | count n => simp [probeErased, hp]

theorem detect_next_erased (cssProbe xpathProbe : String → ProbeResult) :
    detect_next_button (probeErased cssProbe) (probeErased xpathProbe) =
      detect_next_button cssProbe xpathProbe := by
  unfold detect_next_button
  rw [find?_congr _ _ (fun sel => probeHit_erased cssProbe sel) cssNextCandidates,
      find?_congr _ _ (fun xp => probeHit_erased xpathProbe xp) xpathNextCandidates]

/-- C7: if the initial navigation fails with a Playwright error, exactly one
retry with the fallback wait policy is attempted; the run proceeds to shape
detection iff that retry succeeds, and otherwise terminates with no detection
or extraction performed.  Detection probes, by contrast, swallow their
errors: for both the best-table detector and the next-control detector, an
erroring probe is indistinguishable from a zero-count probe. -/
theorem c7_navigation_retry (first retryOutcome : NavResult)
    (h : first = NavResult.pwError) :
    (navigate_run first retryOutcome).1 = 1 ∧
    ((navigate_run first retryOutcome).2 = true ↔ retryOutcome = NavResult.success) ∧
    (∀ probe : String → ProbeResult,
      detect_best_table_selector (probeErased probe) =
        detect_best_table_selector probe) ∧
    (∀ cssProbe xpathProbe : String → ProbeResult,
      detect_next_button (probeErased cssProbe) (probeErased xpathProbe) =
        detect_next_button cssProbe xpathProbe) := by
  subst h
  refine ⟨?_, ?_, detect_best_erased, detect_next_erased⟩
  · cases retryOutcome <;> rfl
  · cases retryOutcome <;> simp [navigate_run]

/-- C7 witness: a failed first navigation followed by a successful retry
makes exactly one retry and proceeds. -/
theorem c7_navigation_retry_witness :
    (navigate_run NavResult.pwError NavResult.success).1 = 1 ∧
    ((navigate_run NavResult.pwError NavResult.success).2 = true ↔
      NavResult.success = NavResult.success) :=
  ⟨(c7_navigation_retry NavResult.pwError NavResult.success rfl).1,
   (c7_navigation_retry NavResult.pwError NavResult.success rfl).2.1⟩

/-- C8: an empty URL, or one that does not start with "http" after
case-folding, makes `head_check_image` return Missing and
`download_image_async` return none, immediately and with zero network
requests (hence no retries). -/
theorem c8_non_http_no_request (url folder name : String)
    (hnet : Nat → Option HeadResponse) (dnet : Nat → Option Nat) (r1 r2 : Nat)
    (h : url = "" ∨ pyStartsWith (pyLower url) "http" = false) :
    head_check_image url hnet r1 = ("Missing", 0) ∧
    download_image_async url folder name dnet r2 = (Option.none, 0) := by
  have hguard : isHttpLike url = false := by
    rcases h with h | h
    · subst h
      rfl
    · simp [isHttpLike, h]
  constructor
  · unfold head_check_image
    rw [hguard]
    rfl
  · unfold download_image_async
    rw [hguard]
    rfl

/-- C8 witness: an ftp URL and an empty URL short-circuit with no request. -/
theorem c8_non_http_no_request_witness :
    head_check_image "ftp://images.example/x.png" (fun _ => Option.none) 2 =
      ("Missing", 0) ∧
    download_image_async "" "scraped_images" "Items_r1" (fun _ => some 200) 2 =
      (Option.none, 0) :=
  ⟨(c8_non_http_no_request "ftp://images.example/x.png" "scraped_images" "Items_r1"
      (fun _ => Option.none) (fun _ => some 200) 2 2 (Or.inr (by decide))).1,
   (c8_non_http_no_request "" "scraped_images" "Items_r1"
      (fun _ => Option.none) (fun _ => some 200) 2 2 (Or.inl rfl)).2⟩

theorem string_ne_empty_of_two_lt (s : String) (h : 2 < s.length) : s ≠ "" := by
  intro he
  subst he
  exact absurd h (by decide)

/-- C10: the FivePaisa table extractor produces a record for a body row iff
the row's queried (first) anchor has trimmed text longer than 2 characters;
rows with no anchor or with a short anchor name yield nothing; and a produced
record's logo_url is N/A exactly when the row's queried image is absent or
has no src value, assuming URL resolution never returns an empty or literal
N/A href. -/
theorem c10_fivepaisa_row (resolve : String → String) (row : FpRow)
    (hres : ∀ s, resolve s ≠ "" ∧ resolve s ≠ "N/A") :
    extract_from_table_selector resolve [row] = (fpRowRecord resolve row).toList ∧
    ((fpRowRecord resolve row).isSome = true ↔
      ∃ a, row.anchors.head? = some a ∧ 2 < (pyTrim a).length) ∧
    (∀ rec, fpRowRecord resolve row = some rec →
      (rec.logo_url = "N/A" ↔
        ∀ i, row.imgEls.head? = some i → i.src.getD "" = "")) := by
  refine ⟨?_, ?_, ?_⟩
  · cases h : fpRowRecord resolve row <;> simp [extract_from_table_selector, h]
  · cases ha : row.anchors.head? with
    | none => simp [fpRowRecord, ha]
    | some a =>
      by_cases hlen : 2 < (pyTrim a).length
      · have hne : pyTrim a ≠ "" := string_ne_empty_of_two_lt _ hlen
        simp [fpRowRecord, ha, hlen, hne]
      · have hcond : ¬(pyTrim a ≠ "" ∧ 2 < (pyTrim a).length) := fun hc => hlen hc.2
        simp [fpRowRecord, ha, hcond, hlen]
  · intro rec hrec
    cases ha : row.anchors.head? with
    | none => simp [fpRowRecord, ha] at hrec
    | some a =>
      cases hi : row.imgEls.head? with
      | none =>
        simp only [fpRowRecord, ha, hi, if_true] at hrec
        split at hrec
        next =>
          have hr : rec = ⟨pyTrim a, "N/A"⟩ := (Option.some.inj hrec).symm
          subst hr
          simp
        next => exact Option.noConfusion hrec
      | some img =>
        simp only [fpRowRecord, ha, hi] at hrec
        by_cases hs : img.src.getD "" = ""
        · have hlogo : (if img.src.getD "" ≠ "" ∧
              ¬pyStartsWith (img.src.getD "") "http" then
              resolve (img.src.getD "") else img.src.getD "") = img.src.getD "" :=
            if_neg (fun hc => hc.1 hs)
          rw [hlogo, hs] at hrec
          simp only [if_true] at hrec
          split at hrec
          next =>
            have hr : rec = ⟨pyTrim a, "N/A"⟩ := (Option.some.inj hrec).symm
            subst hr
            simp [hs]
          next => exact Option.noConfusion hrec
        · by_cases hw : pyStartsWith (img.src.getD "") "http" = true
          · have hlogo : (if img.src.getD "" ≠ "" ∧
                ¬pyStartsWith (img.src.getD "") "http" then
                resolve (img.src.getD "") else img.src.getD "") =
                img.src.getD "" := by
              rw [if_neg]
              intro hc
              exact hc.2 hw
            rw [hlogo, if_neg hs] at hrec
            split at hrec
            next =>
              have hr : rec = ⟨pyTrim a, img.src.getD ""⟩ := (Option.some.inj hrec).symm
              subst hr
              constructor
              · intro hna
                have hna' : img.src.getD "" = "N/A" := hna
                rw [hna'] at hw
                exact absurd hw (by decide)
              · intro hall
                exact absurd (hall img rfl) hs
            next => exact Option.noConfusion hrec
          · have hw' : ¬pyStartsWith (img.src.getD "") "http" = true := hw
            have hlogo : (if img.src.getD "" ≠ "" ∧
                ¬pyStartsWith (img.src.getD "") "http" then
                resolve (img.src.getD "") else img.src.getD "") =
                resolve (img.src.getD "") := if_pos ⟨hs, hw'⟩
            rw [hlogo, if_neg (hres (img.src.getD "")).1] at hrec
            split at hrec
            next =>
              have hr : rec = ⟨pyTrim a, resolve (img.src.getD "")⟩ :=
                (Option.some.inj hrec).symm
              subst hr
              constructor
              · intro hna
                have hna' : resolve (img.src.getD "") = "N/A" := hna
                exact absurd hna' (hres (img.src.getD "")).2
              · intro hall
                exact absurd (hall img rfl) hs
            next => exact Option.noConfusion hrec

/-- C10 witness: a row with a long anchor name and a sourced image yields a
record. -/
theorem c10_fivepaisa_row_witness :
    (fpRowRecord (fun _ => "https://www.5paisa.com/logo.png")
      ⟨["Reliance Industries"], [⟨some "logo.png"⟩]⟩).isSome = true :=
  ((c10_fivepaisa_row (fun _ => "https://www.5paisa.com/logo.png")
      ⟨["Reliance Industries"], [⟨some "logo.png"⟩]⟩
      (fun _ => ⟨(by decide : ("https://www.5paisa.com/logo.png" : String) ≠ ""),
                 (by decide :
                   ("https://www.5paisa.com/logo.png" : String) ≠ "N/A")⟩)).2.1).mpr
    ⟨"Reliance Industries", rfl, by decide⟩

end Scraper
